import Mathlib

/-!
Verification of the decode dispatch layer of the bson package
(`bson/unmarshal.go`): the public unmarshalling entry points, their
error gating, decoder-pool lifecycle and the dual-output capture entry
point `UnmarshalExtJSONWithRes`.

The dispatch functions themselves are translated directly from the Go
source.  Their collaborators (the pooled `Decoder` with its `Reset`,
`SetContext` and `Decode` methods, the codec registry, and the two
value-reader constructors from `bsonrw`) live outside this file's
source scope, so they are modelled from the specification: the fallible
decoder steps become an oracle environment `Env`, and a concrete,
executable engine `specEngine` instantiates that oracle for concrete
scenarios.  Every call is modelled as a pure function that also records
the sequence of pipeline events it performed, so ordering, gating and
pool-balance properties are stated over the recorded trace.
-/

set_option maxHeartbeats 1000000

namespace Bson

/-- Generic document value: the untyped tree that the generic capture
(a `primitive.M`) holds, and that this model also uses for the contents
of decoded destinations. -/
inductive JVal where
  | str : String → JVal
  | int : Int → JVal
  | doc : List (String × JVal) → JVal

/-- Skip JSON whitespace. -/
def skipWs : List Char → List Char
  | [] => []
  | c :: rest =>
    if c = ' ' || c = '\n' || c = '\t' || c = '\r' then skipWs rest else c :: rest

/-- Read the body of a string literal (the opening quote already
consumed) up to the closing quote; fails on an unterminated literal. -/
def parseStrBody : List Char → Option (List Char × List Char)
  | [] => none
  | '"' :: rest => some ([], rest)
  | c :: rest =>
    match parseStrBody rest with
    | some (s, r) => some (c :: s, r)
    | none => none

/-- Longest leading run of decimal digits. -/
def takeDigits : List Char → List Char × List Char
  | [] => ([], [])
  | c :: rest =>
    if c.isDigit then
      let p := takeDigits rest
      (c :: p.1, p.2)
    else ([], c :: rest)

/-- Decimal value of a digit run, accumulator style. -/
def digitsToNat (acc : Nat) : List Char → Nat
  | [] => acc
  | c :: rest => digitsToNat (acc * 10 + (c.toNat - 48)) rest

/-- Parse an integer literal (optional minus sign, then digits). -/
def parseNum : List Char → Option (Int × List Char)
  | '-' :: rest =>
    match takeDigits rest with
    | ([], _) => none
    | (ds, r) => some (-(Int.ofNat (digitsToNat 0 ds)), r)
  | cs =>
    match takeDigits cs with
    | ([], _) => none
    | (ds, r) => some (Int.ofNat (digitsToNat 0 ds), r)

mutual

/-- Modelled from the spec: the token-level extended-JSON parser is an
external collaborator; this is a minimal recursive-descent parser for
the literal forms the specification's scenarios use (strings, integers
and nested objects), fuelled to make termination structural. -/
def parseValF : Nat → List Char → Option (JVal × List Char)
  | 0, _ => none
  | Nat.succ fuel, cs =>
    match skipWs cs with
    | [] => none
    | '"' :: rest =>
      match parseStrBody rest with
      | some (s, r) => some (JVal.str (String.mk s), r)
      | none => none
    | '{' :: rest =>
      match skipWs rest with
      | '}' :: r2 => some (JVal.doc [], r2)
      | rest2 =>
        match parseMembersF fuel rest2 with
        | some (fs, r2) => some (JVal.doc fs, r2)
        | none => none
    | cs2 =>
      match parseNum cs2 with
      | some (n, r) => some (JVal.int n, r)
      | none => none

/-- Modelled from the spec: object members, `"key": value` separated by
commas and closed by a brace. -/
def parseMembersF : Nat → List Char → Option (List (String × JVal) × List Char)
  | 0, _ => none
  | Nat.succ fuel, cs =>
    match skipWs cs with
    | '"' :: rest =>
      match parseStrBody rest with
      | some (k, r1) =>
        match skipWs r1 with
        | ':' :: r2 =>
          match parseValF fuel r2 with
          | some (v, r3) =>
            match skipWs r3 with
            | ',' :: r4 =>
              match parseMembersF fuel r4 with
              | some (fs, r5) => some ((String.mk k, v) :: fs, r5)
              | none => none
            | '}' :: r4 => some ([(String.mk k, v)], r4)
            | _ => none
          | none => none
        | _ => none
      | none => none
    | _ => none

end

/-- Parse one extended-JSON document occupying the whole input. -/
def parseExtJSON (cs : List Char) : Option JVal :=
  match parseValF (cs.length + 1) cs with
  | some (v, rest) => if skipWs rest = [] then some v else none
  | none => none

/-- Number of quote characters in the input. -/
def countQuotes : List Char → Nat
  | [] => 0
  | c :: rest => (if c = '"' then 1 else 0) + countQuotes rest

/-- Valid first character of an extended-JSON value. -/
def validLeadingChar (c : Char) : Bool :=
  c = '{' || c = '[' || c = '"' || c = '-' || c.isDigit || c = 't' || c = 'f' || c = 'n'

/-- Modelled from the spec: the framing check performed when the
extended-JSON value reader is constructed (`bsonrw.NewExtJSONValueReader`
peeks the leading token).  Construction fails on truncated input (empty
after whitespace), an invalid leading byte, or an unterminated literal
(odd number of quotes); deeper malformation surfaces only at decode
time. -/
def extJSONFramingValid (cs : List Char) : Bool :=
  match skipWs cs with
  | [] => false
  | c :: _ => validLeadingChar c && countQuotes cs % 2 == 0

/-- Codec registry, consumed opaquely by the dispatch layer (only its
identity matters here); `bsoncodec.Registry`. -/
structure Registry where
  id : Nat
deriving DecidableEq, Repr

/-- Modelled from the spec: the process-wide default registry
(`bson.DefaultRegistry`), a fixed shared instance. -/
def DefaultRegistry : Registry :=
  Registry.mk 0

/-- Per-call configuration bundle (`bsoncodec.DecodeContext`): the
registry, the capture slot `ValM` (a possibly-nil pointer, modelled as
an optional address) and the dual-output flag `SetVal`. -/
structure DecodeContext where
  Registry : Registry
  ValM : Option Nat := none
  SetVal : Bool := false
deriving DecidableEq, Repr

/-- The two value-reader variants behind the common cursor interface. -/
inductive ValueReader where
  | bsonDoc : List Nat → ValueReader
  | extJSON : List Char → Bool → ValueReader
deriving DecidableEq, Repr

/-- Errors surfaced by the dispatch layer. -/
inductive Err where
  | invalidUnmarshal
  | invalidJSON
  | resetFailure
  | contextFailure
  | decodeFailure : Nat → Err
deriving DecidableEq, Repr

/-- Pipeline events recorded by a call, in the order performed. -/
inductive Event where
  | newBSONReader
  | newExtJSONReader : Bool → Event
  | acquire
  | reset : Option Err → Event
  | setContext : DecodeContext → Option Err → Event
  | decode : Option Err → Event
  | commit
  | release
deriving DecidableEq, Repr

/-- A Go interface argument as the dispatch layer can observe it: the
nil interface, a non-pointer value, or a pointer to a slot. -/
inductive GoRef where
  | nil
  | nonPtr
  | ptr
deriving DecidableEq, Repr

/-- A reflection-level crash (Go panic) raised by the capture commit. -/
inductive Crash where
  | elemOnInvalidValue
  | setUsingZeroValue
deriving DecidableEq, Repr

/-- How a call ends: a normal return carrying an optional error, or a
crash (panic) escaping the call. -/
inductive CallOutcome where
  | ret : Option Err → CallOutcome
  | crashed : Crash → CallOutcome
deriving DecidableEq, Repr

/-- Result of one engine run: status, the destination slot's contents
afterwards (possibly partially populated on error), and the generic
value accumulated through the capture slot, if any was written. -/
structure EngineResult where
  err : Option Err
  valOut : Option JVal
  capture : Option JVal

/-- Modelled from the spec: the behaviours of the external collaborators
of the dispatch layer — the pooled Decoder's fallible `Reset` and
`SetContext` steps and its decode engine.  Universally quantified
theorems below hold for every such behaviour. -/
structure Env where
  resetErr : ValueReader → Option Err
  ctxErr : DecodeContext → Option Err
  engine : DecodeContext → ValueReader → Option JVal → EngineResult

/-- Modelled from the spec: `Decoder.Decode` rejects a nil or
non-pointer destination with `InvalidUnmarshalError` before reading;
for a valid destination it runs the decode engine. -/
def decodeStep (env : Env) (dc : DecodeContext) (vr : ValueReader)
    (valRef : GoRef) (valIn : Option JVal) : EngineResult :=
  match valRef with
  | GoRef.nil => EngineResult.mk (some Err.invalidUnmarshal) valIn none
  | GoRef.nonPtr => EngineResult.mk (some Err.invalidUnmarshal) valIn none
  | GoRef.ptr => env.engine dc vr valIn

/-- Result of a public unmarshalling call: the returned error, the final
contents of the destination slot, and the recorded event trace. -/
structure UnmarshalResult where
  err : Option Err
  valOut : Option JVal
  trace : List Event

/-- The binary document reader constructor
(`bsonrw.NewBSONDocumentReader`): total, wraps the byte buffer and
cannot fail. -/
def NewBSONDocumentReader (data : List Nat) : ValueReader :=
  ValueReader.bsonDoc data

/-- Outcome of constructing an extended-JSON value reader. -/
inductive ReaderResult where
  | ok : ValueReader → ReaderResult
  | err : Err → ReaderResult

/-- Modelled from the spec: `bsonrw.NewExtJSONValueReader` peeks the
input's framing at construction time and fails with `ErrInvalidJSON`
when the framing is malformed. -/
def NewExtJSONValueReader (data : List Char) (canonical : Bool) : ReaderResult :=
  if extJSONFramingValid data then ReaderResult.ok (ValueReader.extJSON data canonical)
  else ReaderResult.err Err.invalidJSON

/-- Translation of `unmarshalFromReader` (unmarshal.go lines 88-102):
acquire a pooled Decoder with a deferred release, `Reset` with the
reader, `SetContext`, then a single `Decode`; each step's error returns
immediately, and the deferred release always runs last. -/
def unmarshalFromReader (env : Env) (dc : DecodeContext) (vr : ValueReader)
    (valRef : GoRef) (valIn : Option JVal) : UnmarshalResult :=
  let body : Option Err × Option JVal × List Event :=
    match env.resetErr vr with
    | some e => (some e, valIn, [Event.reset (some e)])
    | none =>
      match env.ctxErr dc with
      | some e => (some e, valIn, [Event.reset none, Event.setContext dc (some e)])
      | none =>
        let r := decodeStep env dc vr valRef valIn
        (r.err, r.valOut, [Event.reset none, Event.setContext dc none, Event.decode r.err])
  UnmarshalResult.mk body.1 body.2.1 (Event.acquire :: body.2.2 ++ [Event.release])

/-- Translation of `UnmarshalWithRegistry` (lines 44-47). -/
def UnmarshalWithRegistry (env : Env) (r : Registry) (data : List Nat)
    (valRef : GoRef) (valIn : Option JVal) : UnmarshalResult :=
  let vr := NewBSONDocumentReader data
  let res := unmarshalFromReader env { Registry := r } vr valRef valIn
  UnmarshalResult.mk res.err res.valOut (Event.newBSONReader :: res.trace)

/-- Translation of `Unmarshal` (lines 37-39). -/
def Unmarshal (env : Env) (data : List Nat) (valRef : GoRef) (valIn : Option JVal) : UnmarshalResult :=
  UnmarshalWithRegistry env DefaultRegistry data valRef valIn

/-- Translation of `UnmarshalWithContext` (lines 52-55). -/
def UnmarshalWithContext (env : Env) (dc : DecodeContext) (data : List Nat)
    (valRef : GoRef) (valIn : Option JVal) : UnmarshalResult :=
  let vr := NewBSONDocumentReader data
  let res := unmarshalFromReader env dc vr valRef valIn
  UnmarshalResult.mk res.err res.valOut (Event.newBSONReader :: res.trace)

/-- Translation of `UnmarshalExtJSONWithRegistry` (lines 67-74). -/
def UnmarshalExtJSONWithRegistry (env : Env) (r : Registry) (data : List Char)
    (canonical : Bool) (valRef : GoRef) (valIn : Option JVal) : UnmarshalResult :=
  match NewExtJSONValueReader data canonical with
  | ReaderResult.err e => UnmarshalResult.mk (some e) valIn [Event.newExtJSONReader false]
  | ReaderResult.ok vr =>
    let res := unmarshalFromReader env { Registry := r } vr valRef valIn
    UnmarshalResult.mk res.err res.valOut (Event.newExtJSONReader true :: res.trace)

/-- Translation of `UnmarshalExtJSON` (lines 60-62). -/
def UnmarshalExtJSON (env : Env) (data : List Char) (canonical : Bool)
    (valRef : GoRef) (valIn : Option JVal) : UnmarshalResult :=
  UnmarshalExtJSONWithRegistry env DefaultRegistry data canonical valRef valIn

/-- Translation of `UnmarshalExtJSONWithContext` (lines 79-86). -/
def UnmarshalExtJSONWithContext (env : Env) (dc : DecodeContext) (data : List Char)
    (canonical : Bool) (valRef : GoRef) (valIn : Option JVal) : UnmarshalResult :=
  match NewExtJSONValueReader data canonical with
  | ReaderResult.err e => UnmarshalResult.mk (some e) valIn [Event.newExtJSONReader false]
  | ReaderResult.ok vr =>
    let res := unmarshalFromReader env dc vr valRef valIn
    UnmarshalResult.mk res.err res.valOut (Event.newExtJSONReader true :: res.trace)

/-- Result of a `UnmarshalExtJSONWithRes` call: outcome (return or
crash), final destination contents, final capture-destination contents,
and the event trace. -/
structure ResResult where
  outcome : CallOutcome
  valOut : Option JVal
  resOut : Option JVal
  trace : List Event

/-- The commit `reflect.ValueOf(res).Elem().Set(vM)` (line 150) under Go
reflection semantics: `Elem` panics when `res` is the nil interface or a
non-pointer, and `Set` panics when the capture slot still holds the zero
`reflect.Value` (the engine never wrote it). -/
def commitRes (resRef : GoRef) (resIn vm : Option JVal) : CallOutcome × Option JVal :=
  match resRef with
  | GoRef.nil => (CallOutcome.crashed Crash.elemOnInvalidValue, resIn)
  | GoRef.nonPtr => (CallOutcome.crashed Crash.elemOnInvalidValue, resIn)
  | GoRef.ptr =>
    match vm with
    | none => (CallOutcome.crashed Crash.setUsingZeroValue, resIn)
    | some v => (CallOutcome.ret none, some v)

/-- Translation of `UnmarshalExtJSONWithRes` (lines 125-153).  The
parameter `alloc` is the fresh address returned by `new(reflect.Value)`
at line 138.  The deferred pool release runs last on every path, crash
included (Go runs deferred calls during panic unwinding). -/
def UnmarshalExtJSONWithRes (env : Env) (alloc : Nat) (data : List Char) (canonical : Bool)
    (valRef : GoRef) (valIn : Option JVal) (resRef : GoRef) (resIn : Option JVal) : ResResult :=
  match NewExtJSONValueReader data canonical with
  | ReaderResult.err e => ResResult.mk (CallOutcome.ret (some e)) valIn resIn [Event.newExtJSONReader false]
  | ReaderResult.ok vr =>
    let body : CallOutcome × Option JVal × Option JVal × List Event :=
      match env.resetErr vr with
      | some e => (CallOutcome.ret (some e), valIn, resIn, [Event.reset (some e)])
      | none =>
        let dc : DecodeContext := { Registry := DefaultRegistry, ValM := some alloc, SetVal := true }
        match env.ctxErr dc with
        | some e =>
          (CallOutcome.ret (some e), valIn, resIn, [Event.reset none, Event.setContext dc (some e)])
        | none =>
          let r := decodeStep env dc vr valRef valIn
          match r.err with
          | some e =>
            (CallOutcome.ret (some e), r.valOut, resIn,
              [Event.reset none, Event.setContext dc none, Event.decode (some e)])
          | none =>
            let co := commitRes resRef resIn r.capture
            (co.1, r.valOut, co.2,
              [Event.reset none, Event.setContext dc none, Event.decode none, Event.commit])
    ResResult.mk body.1 body.2.1 body.2.2.1
      (Event.newExtJSONReader true :: Event.acquire :: body.2.2.2 ++ [Event.release])

/-- Prepend one event to a call result's trace. -/
def prependEv (e : Event) (r : UnmarshalResult) : UnmarshalResult :=
  UnmarshalResult.mk r.err r.valOut (e :: r.trace)

/-- Number of occurrences of an event in a trace. -/
def countEv (e : Event) : List Event → Nat
  | [] => 0
  | x :: rest => (if x = e then 1 else 0) + countEv e rest

/-- The dispatch recipe exactly as the specification words it (section
4.4): acquire a pooled Decoder; reset it with the reader, propagating
any reset error; bind the Decode Context, propagating any binding
error; run a single decode; release the Decoder unconditionally; return
the first error encountered, else nil — with no later stage run after
the first error. -/
def specSequence (env : Env) (dc : DecodeContext) (vr : ValueReader)
    (valRef : GoRef) (valIn : Option JVal) : UnmarshalResult :=
  match env.resetErr vr with
  | some e =>
    UnmarshalResult.mk (some e) valIn [Event.acquire, Event.reset (some e), Event.release]
  | none =>
    match env.ctxErr dc with
    | some e =>
      UnmarshalResult.mk (some e) valIn
        [Event.acquire, Event.reset none, Event.setContext dc (some e), Event.release]
    | none =>
      let r := decodeStep env dc vr valRef valIn
      UnmarshalResult.mk r.err r.valOut
        [Event.acquire, Event.reset none, Event.setContext dc none, Event.decode r.err, Event.release]

/-- The specification's recipe for an extended-JSON entry point:
construct the reader first, propagating a construction error verbatim
with nothing else run, then the common dispatch sequence. -/
def extSpec (env : Env) (dc : DecodeContext) (data : List Char) (canonical : Bool)
    (valRef : GoRef) (valIn : Option JVal) : UnmarshalResult :=
  match NewExtJSONValueReader data canonical with
  | ReaderResult.err e => UnmarshalResult.mk (some e) valIn [Event.newExtJSONReader false]
  | ReaderResult.ok vr =>
    prependEv (Event.newExtJSONReader true) (specSequence env dc vr valRef valIn)

/-- The context built by the capture entry point: default registry,
dual-output enabled, capture slot at the freshly allocated address. -/
def captureContext (alloc : Nat) : DecodeContext :=
  { Registry := DefaultRegistry, ValM := some alloc, SetVal := true }

/-- The specification's recipe for the specialized capture entry point
(section 4.4, last sentence): reader construction, then the common
dispatch sequence with a dual-output context, then — only once the
decode has succeeded — the commit of the accumulated capture into the
second destination. -/
def specSequenceCapture (env : Env) (alloc : Nat) (data : List Char) (canonical : Bool)
    (valRef : GoRef) (valIn : Option JVal) (resRef : GoRef) (resIn : Option JVal) : ResResult :=
  match NewExtJSONValueReader data canonical with
  | ReaderResult.err e =>
    ResResult.mk (CallOutcome.ret (some e)) valIn resIn [Event.newExtJSONReader false]
  | ReaderResult.ok vr =>
    match env.resetErr vr with
    | some e =>
      ResResult.mk (CallOutcome.ret (some e)) valIn resIn
        [Event.newExtJSONReader true, Event.acquire, Event.reset (some e), Event.release]
    | none =>
      match env.ctxErr (captureContext alloc) with
      | some e =>
        ResResult.mk (CallOutcome.ret (some e)) valIn resIn
          [Event.newExtJSONReader true, Event.acquire, Event.reset none,
            Event.setContext (captureContext alloc) (some e), Event.release]
      | none =>
        let r := decodeStep env (captureContext alloc) vr valRef valIn
        match r.err with
        | some e =>
          ResResult.mk (CallOutcome.ret (some e)) r.valOut resIn
            [Event.newExtJSONReader true, Event.acquire, Event.reset none,
              Event.setContext (captureContext alloc) none, Event.decode (some e), Event.release]
        | none =>
          let co := commitRes resRef resIn r.capture
          ResResult.mk co.1 r.valOut co.2
            [Event.newExtJSONReader true, Event.acquire, Event.reset none,
              Event.setContext (captureContext alloc) none, Event.decode none,
              Event.commit, Event.release]

/-- Field lookup in a generic document, first match wins. -/
def lookupField (fs : List (String × JVal)) (k : String) : Option JVal :=
  match fs with
  | [] => none
  | (k', v) :: rest => if k' = k then some v else lookupField rest k

/-- Modelled from the spec: the registry's decoding rule for the
specification's example destination shape, a struct with a string field
A and a nested struct field B holding an int field B; field names are
matched by their lowercased form, the bson default. -/
def decodeShapeT (g : JVal) : Option JVal :=
  match g with
  | JVal.doc fs =>
    match lookupField fs "a", lookupField fs "b" with
    | some (JVal.str a), some (JVal.doc bfs) =>
      match lookupField bfs "b" with
      | some (JVal.int n) =>
        some (JVal.doc [("A", JVal.str a), ("B", JVal.doc [("B", JVal.int n)])])
      | _ => none
    | _, _ => none
  | _ => none

/-- Modelled from the spec: a concrete decode engine for the
specification's dual-output scenario.  It parses the extended-JSON
input in a single traversal; on success the typed destination receives
the value decoded by the example shape's rule, and, when dual output is
enabled with a non-nil capture slot, the same traversal's generic tree
is written through the capture slot. -/
def specEngine (dc : DecodeContext) (vr : ValueReader) (valIn : Option JVal) : EngineResult :=
  match vr with
  | ValueReader.extJSON data _ =>
    match parseExtJSON data with
    | none => EngineResult.mk (some (Err.decodeFailure 0)) valIn none
    | some g =>
      match decodeShapeT g with
      | none => EngineResult.mk (some (Err.decodeFailure 1)) valIn none
      | some t =>
        EngineResult.mk none (some t) (if dc.SetVal && dc.ValM.isSome then some g else none)
  | ValueReader.bsonDoc _ => EngineResult.mk (some (Err.decodeFailure 2)) valIn none

/-- A concrete environment: infallible Reset and SetContext (as in the
shipped Decoder) over the concrete engine. -/
def env0 : Env :=
  Env.mk (fun _ => none) (fun _ => none) specEngine

/-- A concrete environment whose Reset step fails, to exercise the
error-gating paths. -/
def envResetFail : Env :=
  Env.mk (fun _ => some Err.resetFailure) (fun _ => none) specEngine

/-- The specification's dual-output scenario input, the extended-JSON
document pairing key a with string 123 and key b with a nested document
pairing key b with integer 123. -/
def c4input : List Char :=
  ['{', '"', 'a', '"', ':', ' ', '"', '1', '2', '3', '"', ',', ' ',
   '"', 'b', '"', ':', ' ', '{', '"', 'b', '"', ':', ' ', '1', '2', '3', '}', '}']

/-- An input whose extended-JSON framing is malformed: an unterminated
string literal. -/
def badInput : List Char :=
  ['{', '"', 'a']

/-- The generic capture the scenario expects. -/
def c4generic : JVal :=
  JVal.doc [("a", JVal.str "123"), ("b", JVal.doc [("b", JVal.int 123)])]

/-- The typed destination value the scenario expects. -/
def c4typed : JVal :=
  JVal.doc [("A", JVal.str "123"), ("B", JVal.doc [("B", JVal.int 123)])]

/-- A trace checks out and returns pooled decoders in balance: releases
match acquisitions, and a call acquires at most once. -/
def poolBalanced (tr : List Event) : Prop :=
  countEv Event.release tr = countEv Event.acquire tr ∧ countEv Event.acquire tr ≤ 1

theorem unmarshalFromReader_eq_specSequence (env : Env) (dc : DecodeContext)
    (vr : ValueReader) (valRef : GoRef) (valIn : Option JVal) :
    unmarshalFromReader env dc vr valRef valIn = specSequence env dc vr valRef valIn := by
  unfold unmarshalFromReader specSequence
  cases env.resetErr vr <;> cases env.ctxErr dc <;> rfl

theorem unmarshalWithRegistry_eq_spec (env : Env) (reg : Registry) (bdata : List Nat)
    (valRef : GoRef) (valIn : Option JVal) :
    UnmarshalWithRegistry env reg bdata valRef valIn
      = prependEv Event.newBSONReader
          (specSequence env { Registry := reg } (NewBSONDocumentReader bdata) valRef valIn) := by
  simp only [UnmarshalWithRegistry, prependEv, unmarshalFromReader_eq_specSequence]

theorem unmarshalWithContext_eq_spec (env : Env) (dc : DecodeContext) (bdata : List Nat)
    (valRef : GoRef) (valIn : Option JVal) :
    UnmarshalWithContext env dc bdata valRef valIn
      = prependEv Event.newBSONReader
          (specSequence env dc (NewBSONDocumentReader bdata) valRef valIn) := by
  simp only [UnmarshalWithContext, prependEv, unmarshalFromReader_eq_specSequence]

theorem unmarshalExtJSONWithRegistry_eq_spec (env : Env) (reg : Registry) (jdata : List Char)
    (canonical : Bool) (valRef : GoRef) (valIn : Option JVal) :
    UnmarshalExtJSONWithRegistry env reg jdata canonical valRef valIn
      = extSpec env { Registry := reg } jdata canonical valRef valIn := by
  simp only [UnmarshalExtJSONWithRegistry, extSpec, prependEv]
  cases NewExtJSONValueReader jdata canonical with
  | err e => rfl
  | ok vr => simp only [unmarshalFromReader_eq_specSequence]

theorem unmarshalExtJSONWithContext_eq_spec (env : Env) (dc : DecodeContext) (jdata : List Char)
    (canonical : Bool) (valRef : GoRef) (valIn : Option JVal) :
    UnmarshalExtJSONWithContext env dc jdata canonical valRef valIn
      = extSpec env dc jdata canonical valRef valIn := by
  simp only [UnmarshalExtJSONWithContext, extSpec, prependEv]
  cases NewExtJSONValueReader jdata canonical with
  | err e => rfl
  | ok vr => simp only [unmarshalFromReader_eq_specSequence]

theorem unmarshalExtJSONWithRes_eq_spec (env : Env) (alloc : Nat) (jdata : List Char)
    (canonical : Bool) (valRef : GoRef) (valIn : Option JVal)
    (resRef : GoRef) (resIn : Option JVal) :
    UnmarshalExtJSONWithRes env alloc jdata canonical valRef valIn resRef resIn
      = specSequenceCapture env alloc jdata canonical valRef valIn resRef resIn := by
  simp only [UnmarshalExtJSONWithRes, specSequenceCapture, captureContext]
  cases NewExtJSONValueReader jdata canonical with
  | err e => rfl
  | ok vr =>
    dsimp only
    cases env.resetErr vr with
    | some e => rfl
    | none =>
      dsimp only
      cases env.ctxErr { Registry := DefaultRegistry, ValM := some alloc, SetVal := true } with
      | some e => rfl
      | none =>
        dsimp only
        cases (decodeStep env { Registry := DefaultRegistry, ValM := some alloc, SetVal := true }
            vr valRef valIn).err with
        | some e => rfl
        | none => rfl

theorem setContext_mem_specSequence (env : Env) (dc : DecodeContext) (vr : ValueReader)
    (valRef : GoRef) (valIn : Option JVal) (d : DecodeContext) (e : Option Err) :
    Event.setContext d e ∈ (specSequence env dc vr valRef valIn).trace → d = dc := by
  unfold specSequence
  cases env.resetErr vr with
  | some e1 => simp
  | none =>
    cases env.ctxErr dc with
    | some e1 =>
      intro h
      simp at h
      exact h.1
    | none =>
      intro h
      simp at h
      exact h.1

theorem setContext_mem_specSequenceCapture (env : Env) (alloc : Nat) (jdata : List Char)
    (canonical : Bool) (valRef : GoRef) (valIn : Option JVal) (resRef : GoRef)
    (resIn : Option JVal) (d : DecodeContext) (e : Option Err) :
    Event.setContext d e ∈
        (specSequenceCapture env alloc jdata canonical valRef valIn resRef resIn).trace →
      d = captureContext alloc := by
  unfold specSequenceCapture
  cases NewExtJSONValueReader jdata canonical with
  | err e1 => simp
  | ok vr =>
    dsimp only
    cases env.resetErr vr with
    | some e1 => simp
    | none =>
      dsimp only
      cases env.ctxErr (captureContext alloc) with
      | some e1 =>
        intro h
        simp at h
        exact h.1
      | none =>
        dsimp only
        cases (decodeStep env (captureContext alloc) vr valRef valIn).err with
        | some e1 =>
          intro h
          simp at h
          exact h.1
        | none =>
          intro h
          simp at h
          exact h.1

theorem err_attribution_specSequence (env : Env) (dc : DecodeContext) (vr : ValueReader)
    (valRef : GoRef) (valIn : Option JVal) (e : Err) :
    (specSequence env dc vr valRef valIn).err = some e →
      Event.reset (some e) ∈ (specSequence env dc vr valRef valIn).trace
      ∨ (∃ d, Event.setContext d (some e) ∈ (specSequence env dc vr valRef valIn).trace)
      ∨ Event.decode (some e) ∈ (specSequence env dc vr valRef valIn).trace := by
  unfold specSequence
  cases env.resetErr vr with
  | some e1 =>
    intro h
    simp only [Option.some.injEq] at h
    subst h
    left
    simp
  | none =>
    cases env.ctxErr dc with
    | some e1 =>
      intro h
      simp only [Option.some.injEq] at h
      subst h
      right; left
      exact ⟨dc, by simp⟩
    | none =>
      intro h
      right; right
      dsimp only at h ⊢
      rw [h]
      simp

theorem poolBalanced_specSequence (env : Env) (dc : DecodeContext) (vr : ValueReader)
    (valRef : GoRef) (valIn : Option JVal) :
    poolBalanced (specSequence env dc vr valRef valIn).trace := by
  unfold specSequence poolBalanced
  cases env.resetErr vr with
  | some e1 => simp [countEv]
  | none =>
    cases env.ctxErr dc with
    | some e1 => simp [countEv]
    | none => simp [countEv]

theorem poolBalanced_cons_reader (ev : Event) (tr : List Event)
    (hne1 : ev ≠ Event.release) (hne2 : ev ≠ Event.acquire) (h : poolBalanced tr) :
    poolBalanced (ev :: tr) := by
  unfold poolBalanced at h ⊢
  simp only [countEv, if_neg hne1, if_neg hne2, Nat.zero_add]
  exact h

theorem poolBalanced_specSequenceCapture (env : Env) (alloc : Nat) (jdata : List Char)
    (canonical : Bool) (valRef : GoRef) (valIn : Option JVal) (resRef : GoRef)
    (resIn : Option JVal) :
    poolBalanced (specSequenceCapture env alloc jdata canonical valRef valIn resRef resIn).trace := by
  unfold specSequenceCapture poolBalanced
  cases NewExtJSONValueReader jdata canonical with
  | err e1 => simp [countEv]
  | ok vr =>
    dsimp only
    cases env.resetErr vr with
    | some e1 => simp [countEv]
    | none =>
      dsimp only
      cases env.ctxErr (captureContext alloc) with
      | some e1 => simp [countEv]
      | none =>
        dsimp only
        cases (decodeStep env (captureContext alloc) vr valRef valIn).err with
        | some e1 => simp [countEv]
        | none => simp [countEv]

theorem poolBalanced_extSpec (env : Env) (dc : DecodeContext) (jdata : List Char)
    (canonical : Bool) (valRef : GoRef) (valIn : Option JVal) :
    poolBalanced (extSpec env dc jdata canonical valRef valIn).trace := by
  unfold extSpec
  cases NewExtJSONValueReader jdata canonical with
  | err e => simp [poolBalanced, countEv]
  | ok vr =>
    exact poolBalanced_cons_reader _ _ (by decide) (by decide)
      (poolBalanced_specSequence env dc vr valRef valIn)

theorem setContext_mem_extSpec (env : Env) (dc : DecodeContext) (jdata : List Char)
    (canonical : Bool) (valRef : GoRef) (valIn : Option JVal) (d : DecodeContext)
    (e : Option Err) :
    Event.setContext d e ∈ (extSpec env dc jdata canonical valRef valIn).trace → d = dc := by
  unfold extSpec
  cases NewExtJSONValueReader jdata canonical with
  | err e1 => simp
  | ok vr =>
    intro h
    rcases List.mem_cons.mp h with h1 | h2
    · exact absurd h1 (by simp)
    · exact setContext_mem_specSequence env dc vr valRef valIn d e h2

theorem err_attribution_prepend (ev : Event) (s : UnmarshalResult) (e : Err)
    (h : s.err = some e →
      Event.reset (some e) ∈ s.trace
      ∨ (∃ d, Event.setContext d (some e) ∈ s.trace)
      ∨ Event.decode (some e) ∈ s.trace) :
    (prependEv ev s).err = some e →
      Event.reset (some e) ∈ (prependEv ev s).trace
      ∨ (∃ d, Event.setContext d (some e) ∈ (prependEv ev s).trace)
      ∨ Event.decode (some e) ∈ (prependEv ev s).trace := by
  intro he
  rcases h he with h1 | ⟨d, h2⟩ | h3
  · exact Or.inl (List.mem_cons_of_mem _ h1)
  · exact Or.inr (Or.inl ⟨d, List.mem_cons_of_mem _ h2⟩)
  · exact Or.inr (Or.inr (List.mem_cons_of_mem _ h3))

/-- C1: every public decode operation performs, in order: construction
of the Value Reader for the requested format, acquisition of a pooled
Decoder, Reset with the reader, SetContext, a single Decode into the
target, and an unconditional release of the Decoder; the first error
encountered at any step is returned to the caller unchanged and no
later pipeline stage runs; on full success the call returns nil.
Stated as: each of the seven entry points equals the specification's
dispatch recipe (`specSequence`, `extSpec` and `specSequenceCapture`
spell out exactly these step traces, first-error results and the
success case). -/
theorem c1_dispatch_pipeline (env : Env) (reg : Registry) (dc : DecodeContext)
    (bdata : List Nat) (jdata : List Char) (canonical : Bool) (valRef : GoRef)
    (valIn : Option JVal) (alloc : Nat) (resRef : GoRef) (resIn : Option JVal) :
    Unmarshal env bdata valRef valIn
      = prependEv Event.newBSONReader
          (specSequence env { Registry := DefaultRegistry } (NewBSONDocumentReader bdata) valRef valIn)
  ∧ UnmarshalWithRegistry env reg bdata valRef valIn
      = prependEv Event.newBSONReader
          (specSequence env { Registry := reg } (NewBSONDocumentReader bdata) valRef valIn)
  ∧ UnmarshalWithContext env dc bdata valRef valIn
      = prependEv Event.newBSONReader
          (specSequence env dc (NewBSONDocumentReader bdata) valRef valIn)
  ∧ UnmarshalExtJSON env jdata canonical valRef valIn
      = extSpec env { Registry := DefaultRegistry } jdata canonical valRef valIn
  ∧ UnmarshalExtJSONWithRegistry env reg jdata canonical valRef valIn
      = extSpec env { Registry := reg } jdata canonical valRef valIn
  ∧ UnmarshalExtJSONWithContext env dc jdata canonical valRef valIn
      = extSpec env dc jdata canonical valRef valIn
  ∧ UnmarshalExtJSONWithRes env alloc jdata canonical valRef valIn resRef resIn
      = specSequenceCapture env alloc jdata canonical valRef valIn resRef resIn :=
  ⟨unmarshalWithRegistry_eq_spec env DefaultRegistry bdata valRef valIn,
   unmarshalWithRegistry_eq_spec env reg bdata valRef valIn,
   unmarshalWithContext_eq_spec env dc bdata valRef valIn,
   unmarshalExtJSONWithRegistry_eq_spec env DefaultRegistry jdata canonical valRef valIn,
   unmarshalExtJSONWithRegistry_eq_spec env reg jdata canonical valRef valIn,
   unmarshalExtJSONWithContext_eq_spec env dc jdata canonical valRef valIn,
   unmarshalExtJSONWithRes_eq_spec env alloc jdata canonical valRef valIn resRef resIn⟩

/-- C6: every call that acquires a Decoder from the pool returns it to
the pool exactly once by the end of the call, on every path — success,
Reset failure, SetContext failure and Decode failure alike (and, for
the capture entry point, even when the commit crashes, since the
deferred release runs during unwinding); no path leaks a checked-out
Decoder.  Stated as: in every trace of every entry point the number of
release events equals the number of acquire events and a call acquires
at most once. -/
theorem c6_pool_release_balanced (env : Env) (reg : Registry) (dc : DecodeContext)
    (bdata : List Nat) (jdata : List Char) (canonical : Bool) (valRef : GoRef)
    (valIn : Option JVal) (alloc : Nat) (resRef : GoRef) (resIn : Option JVal) :
    poolBalanced (Unmarshal env bdata valRef valIn).trace
  ∧ poolBalanced (UnmarshalWithRegistry env reg bdata valRef valIn).trace
  ∧ poolBalanced (UnmarshalWithContext env dc bdata valRef valIn).trace
  ∧ poolBalanced (UnmarshalExtJSON env jdata canonical valRef valIn).trace
  ∧ poolBalanced (UnmarshalExtJSONWithRegistry env reg jdata canonical valRef valIn).trace
  ∧ poolBalanced (UnmarshalExtJSONWithContext env dc jdata canonical valRef valIn).trace
  ∧ poolBalanced (UnmarshalExtJSONWithRes env alloc jdata canonical valRef valIn resRef resIn).trace := by
  refine ⟨?_, ?_, ?_, ?_, ?_, ?_, ?_⟩
  · rw [show Unmarshal env bdata valRef valIn
        = UnmarshalWithRegistry env DefaultRegistry bdata valRef valIn from rfl,
      unmarshalWithRegistry_eq_spec]
    exact poolBalanced_cons_reader _ _ (by decide) (by decide)
      (poolBalanced_specSequence env _ _ valRef valIn)
  · rw [unmarshalWithRegistry_eq_spec]
    exact poolBalanced_cons_reader _ _ (by decide) (by decide)
      (poolBalanced_specSequence env _ _ valRef valIn)
  · rw [unmarshalWithContext_eq_spec]
    exact poolBalanced_cons_reader _ _ (by decide) (by decide)
      (poolBalanced_specSequence env _ _ valRef valIn)
  · rw [show UnmarshalExtJSON env jdata canonical valRef valIn
        = UnmarshalExtJSONWithRegistry env DefaultRegistry jdata canonical valRef valIn from rfl,
      unmarshalExtJSONWithRegistry_eq_spec]
    exact poolBalanced_extSpec env _ jdata canonical valRef valIn
  · rw [unmarshalExtJSONWithRegistry_eq_spec]
    exact poolBalanced_extSpec env _ jdata canonical valRef valIn
  · rw [unmarshalExtJSONWithContext_eq_spec]
    exact poolBalanced_extSpec env dc jdata canonical valRef valIn
  · rw [unmarshalExtJSONWithRes_eq_spec]
    exact poolBalanced_specSequenceCapture env alloc jdata canonical valRef valIn resRef resIn

/-- C7: `Unmarshal` behaves identically to `UnmarshalWithRegistry` on
the process-wide default registry, and `UnmarshalExtJSON` behaves
identically to `UnmarshalExtJSONWithRegistry` on the default registry;
the Decode Context these registry entry points build and bind carries
only the registry, with dual output disabled and no capture slot. -/
theorem c7_default_registry_equiv (env : Env) (reg : Registry) (bdata : List Nat)
    (jdata : List Char) (canonical : Bool) (valRef : GoRef) (valIn : Option JVal) :
    Unmarshal env bdata valRef valIn = UnmarshalWithRegistry env DefaultRegistry bdata valRef valIn
  ∧ UnmarshalExtJSON env jdata canonical valRef valIn
      = UnmarshalExtJSONWithRegistry env DefaultRegistry jdata canonical valRef valIn
  ∧ (∀ d e, Event.setContext d e ∈ (UnmarshalWithRegistry env reg bdata valRef valIn).trace →
      d = { Registry := reg, ValM := none, SetVal := false })
  ∧ (∀ d e, Event.setContext d e ∈ (UnmarshalExtJSONWithRegistry env reg jdata canonical valRef valIn).trace →
      d = { Registry := reg, ValM := none, SetVal := false }) := by
  refine ⟨rfl, rfl, ?_, ?_⟩
  · intro d e h
    rw [unmarshalWithRegistry_eq_spec] at h
    rcases List.mem_cons.mp h with h1 | h2
    · exact absurd h1 (by simp)
    · exact setContext_mem_specSequence env _ _ valRef valIn d e h2
  · intro d e h
    rw [unmarshalExtJSONWithRegistry_eq_spec] at h
    exact setContext_mem_extSpec env _ jdata canonical valRef valIn d e h

/-- C8: the binary-format operations construct the binary document
reader as a total operation (the construction event unconditionally
heads every trace and `NewBSONDocumentReader` returns a reader for
every byte input), so any error these operations return originates from
the Reset, SetContext or Decode step: the returned error is always the
error recorded at one of those three events. -/
theorem c8_binary_construction_total (env : Env) (reg : Registry) (dc : DecodeContext)
    (bdata : List Nat) (valRef : GoRef) (valIn : Option JVal) (e : Err) :
    (Unmarshal env bdata valRef valIn).trace.head? = some Event.newBSONReader
  ∧ (UnmarshalWithRegistry env reg bdata valRef valIn).trace.head? = some Event.newBSONReader
  ∧ (UnmarshalWithContext env dc bdata valRef valIn).trace.head? = some Event.newBSONReader
  ∧ ((Unmarshal env bdata valRef valIn).err = some e →
      Event.reset (some e) ∈ (Unmarshal env bdata valRef valIn).trace
      ∨ (∃ d, Event.setContext d (some e) ∈ (Unmarshal env bdata valRef valIn).trace)
      ∨ Event.decode (some e) ∈ (Unmarshal env bdata valRef valIn).trace)
  ∧ ((UnmarshalWithRegistry env reg bdata valRef valIn).err = some e →
      Event.reset (some e) ∈ (UnmarshalWithRegistry env reg bdata valRef valIn).trace
      ∨ (∃ d, Event.setContext d (some e) ∈ (UnmarshalWithRegistry env reg bdata valRef valIn).trace)
      ∨ Event.decode (some e) ∈ (UnmarshalWithRegistry env reg bdata valRef valIn).trace)
  ∧ ((UnmarshalWithContext env dc bdata valRef valIn).err = some e →
      Event.reset (some e) ∈ (UnmarshalWithContext env dc bdata valRef valIn).trace
      ∨ (∃ d, Event.setContext d (some e) ∈ (UnmarshalWithContext env dc bdata valRef valIn).trace)
      ∨ Event.decode (some e) ∈ (UnmarshalWithContext env dc bdata valRef valIn).trace) := by
  refine ⟨rfl, rfl, rfl, ?_, ?_, ?_⟩
  · rw [show Unmarshal env bdata valRef valIn
        = UnmarshalWithRegistry env DefaultRegistry bdata valRef valIn from rfl,
      unmarshalWithRegistry_eq_spec]
    exact err_attribution_prepend _ _ e (err_attribution_specSequence env _ _ valRef valIn e)
  · rw [unmarshalWithRegistry_eq_spec]
    exact err_attribution_prepend _ _ e (err_attribution_specSequence env _ _ valRef valIn e)
  · rw [unmarshalWithContext_eq_spec]
    exact err_attribution_prepend _ _ e (err_attribution_specSequence env _ _ valRef valIn e)

/-- C9: every decode started by `UnmarshalExtJSONWithRes` runs with a
Decode Context whose registry is exactly the process-wide default
registry, whose dual-output flag is on and whose capture slot is the
non-nil pointer freshly allocated by this very call (`alloc` names the
address `new(reflect.Value)` returns at line 138): whatever context is
ever bound during such a call is that one, so the caller has no way to
supply a custom registry or context on the capture path. -/
theorem c9_capture_context_fixed (env : Env) (alloc : Nat) (jdata : List Char)
    (canonical : Bool) (valRef : GoRef) (valIn : Option JVal) (resRef : GoRef)
    (resIn : Option JVal) (d : DecodeContext) (e : Option Err) :
    Event.setContext d e ∈
        (UnmarshalExtJSONWithRes env alloc jdata canonical valRef valIn resRef resIn).trace →
      d.Registry = DefaultRegistry ∧ d.SetVal = true ∧ d.ValM = some alloc := by
  intro h
  rw [unmarshalExtJSONWithRes_eq_spec] at h
  have hd := setContext_mem_specSequenceCapture env alloc jdata canonical valRef valIn resRef resIn d e h
  subst hd
  exact ⟨rfl, rfl, rfl⟩

theorem newExtJSONValueReader_ok (jdata : List Char) (canonical : Bool)
    (hframe : extJSONFramingValid jdata = true) :
    NewExtJSONValueReader jdata canonical
      = ReaderResult.ok (ValueReader.extJSON jdata canonical) := by
  unfold NewExtJSONValueReader
  rw [hframe]
  rfl

theorem newExtJSONValueReader_bad (jdata : List Char) (canonical : Bool)
    (hframe : extJSONFramingValid jdata = false) :
    NewExtJSONValueReader jdata canonical = ReaderResult.err Err.invalidJSON := by
  unfold NewExtJSONValueReader
  rw [hframe]
  rfl

theorem specSequence_invalid_dest (env : Env) (dc : DecodeContext) (vr : ValueReader)
    (valIn : Option JVal) (valRef : GoRef)
    (hval : valRef = GoRef.nil ∨ valRef = GoRef.nonPtr)
    (hreset : env.resetErr vr = none) (hctx : env.ctxErr dc = none) :
    specSequence env dc vr valRef valIn
      = UnmarshalResult.mk (some Err.invalidUnmarshal) valIn
          [Event.acquire, Event.reset none, Event.setContext dc none,
            Event.decode (some Err.invalidUnmarshal), Event.release] := by
  unfold specSequence
  rw [hreset]
  dsimp only
  rw [hctx]
  rcases hval with h | h <;> subst h <;> rfl

theorem specSequenceCapture_invalid_dest (env : Env) (alloc : Nat) (jdata : List Char)
    (canonical : Bool) (valIn : Option JVal) (resRef : GoRef) (resIn : Option JVal)
    (valRef : GoRef)
    (hval : valRef = GoRef.nil ∨ valRef = GoRef.nonPtr)
    (hframe : extJSONFramingValid jdata = true)
    (hreset : env.resetErr (ValueReader.extJSON jdata canonical) = none)
    (hctx : env.ctxErr (captureContext alloc) = none) :
    specSequenceCapture env alloc jdata canonical valRef valIn resRef resIn
      = ResResult.mk (CallOutcome.ret (some Err.invalidUnmarshal)) valIn resIn
          [Event.newExtJSONReader true, Event.acquire, Event.reset none,
            Event.setContext (captureContext alloc) none,
            Event.decode (some Err.invalidUnmarshal), Event.release] := by
  unfold specSequenceCapture
  rw [newExtJSONValueReader_ok jdata canonical hframe]
  dsimp only
  rw [hreset]
  dsimp only
  rw [hctx]
  rcases hval with h | h <;> subst h <;> rfl

theorem capture_success (env : Env) (alloc : Nat) (jdata : List Char) (canonical : Bool)
    (valIn : Option JVal) (resIn : Option JVal) (v : Option JVal) (w : JVal)
    (hframe : extJSONFramingValid jdata = true)
    (hreset : env.resetErr (ValueReader.extJSON jdata canonical) = none)
    (hctx : env.ctxErr (captureContext alloc) = none)
    (heng : env.engine (captureContext alloc) (ValueReader.extJSON jdata canonical) valIn
      = EngineResult.mk none v (some w)) :
    specSequenceCapture env alloc jdata canonical GoRef.ptr valIn GoRef.ptr resIn
      = ResResult.mk (CallOutcome.ret none) v (some w)
          [Event.newExtJSONReader true, Event.acquire, Event.reset none,
            Event.setContext (captureContext alloc) none, Event.decode none,
            Event.commit, Event.release] := by
  unfold specSequenceCapture
  rw [newExtJSONValueReader_ok jdata canonical hframe]
  dsimp only
  rw [hreset]
  dsimp only
  rw [hctx]
  dsimp only [decodeStep]
  rw [heng]
  rfl

theorem capture_resOut_cases (env : Env) (alloc : Nat) (jdata : List Char) (canonical : Bool)
    (valRef : GoRef) (valIn : Option JVal) (resRef : GoRef) (resIn : Option JVal) :
    (specSequenceCapture env alloc jdata canonical valRef valIn resRef resIn).resOut = resIn
    ∨ (specSequenceCapture env alloc jdata canonical valRef valIn resRef resIn).outcome
        = CallOutcome.ret none := by
  unfold specSequenceCapture
  cases NewExtJSONValueReader jdata canonical with
  | err e => left; rfl
  | ok vr =>
    dsimp only
    cases env.resetErr vr with
    | some e => left; rfl
    | none =>
      dsimp only
      cases env.ctxErr (captureContext alloc) with
      | some e => left; rfl
      | none =>
        dsimp only
        cases (decodeStep env (captureContext alloc) vr valRef valIn).err with
        | some e => left; rfl
        | none =>
          dsimp only [commitRes]
          cases resRef with
          | nil => left; rfl
          | nonPtr => left; rfl
          | ptr =>
            cases (decodeStep env (captureContext alloc) vr valRef valIn).capture with
            | none => left; rfl
            | some w => right; rfl

theorem capture_err_keeps_res (env : Env) (alloc : Nat) (jdata : List Char) (canonical : Bool)
    (valRef : GoRef) (valIn : Option JVal) (resRef : GoRef) (resIn : Option JVal) (e : Err) :
    (specSequenceCapture env alloc jdata canonical valRef valIn resRef resIn).outcome
        = CallOutcome.ret (some e) →
      (specSequenceCapture env alloc jdata canonical valRef valIn resRef resIn).resOut = resIn := by
  unfold specSequenceCapture
  cases NewExtJSONValueReader jdata canonical with
  | err e1 => intro _; rfl
  | ok vr =>
    dsimp only
    cases env.resetErr vr with
    | some e1 => intro _; rfl
    | none =>
      dsimp only
      cases env.ctxErr (captureContext alloc) with
      | some e1 => intro _; rfl
      | none =>
        dsimp only
        cases (decodeStep env (captureContext alloc) vr valRef valIn).err with
        | some e1 => intro _; rfl
        | none =>
          dsimp only [commitRes]
          cases resRef with
          | nil => intro h; exact absurd h (by simp)
          | nonPtr => intro h; exact absurd h (by simp)
          | ptr =>
            cases (decodeStep env (captureContext alloc) vr valRef valIn).capture with
            | none => intro h; exact absurd h (by simp)
            | some w => intro h; exact absurd h (by simp)

/-- C2, counterexample: the claim says that for every public decode
operation and every input — the empty input included — a nil (or
non-pointer) destination makes the call fail with the
invalid-destination error before any byte is read.  But the
extended-JSON operations construct the value reader first: on input
with malformed framing (here an unterminated string literal) and a nil
destination, `UnmarshalExtJSON` returns the reader-construction error
`ErrInvalidJSON`, not `InvalidUnmarshalError`. -/
theorem c2_counterexample :
    (UnmarshalExtJSON env0 badInput true GoRef.nil none).err = some Err.invalidJSON
  ∧ some Err.invalidJSON ≠ some Err.invalidUnmarshal :=
  ⟨rfl, by decide⟩

/-- C2 (amended): with a nil or non-pointer destination, the
binary-format operations (whose reader construction is total and reads
nothing) return `InvalidUnmarshalError` with the destination untouched,
provided the decoder's Reset and SetContext succeed (in the shipped
Decoder they always do); the extended-JSON operations do the same
whenever their reader construction succeeds, while on input with
malformed framing they instead return the reader-construction error
`ErrInvalidJSON` before the destination is examined. -/
theorem c2_invalid_destination (env : Env) (reg : Registry) (dc : DecodeContext)
    (bdata : List Nat) (jdata : List Char) (canonical : Bool) (valIn : Option JVal)
    (alloc : Nat) (resRef : GoRef) (resIn : Option JVal) (valRef : GoRef)
    (hval : valRef = GoRef.nil ∨ valRef = GoRef.nonPtr)
    (hreset : ∀ vr, env.resetErr vr = none)
    (hctx : ∀ d, env.ctxErr d = none) :
    ((Unmarshal env bdata valRef valIn).err = some Err.invalidUnmarshal
      ∧ (Unmarshal env bdata valRef valIn).valOut = valIn)
  ∧ ((UnmarshalWithRegistry env reg bdata valRef valIn).err = some Err.invalidUnmarshal
      ∧ (UnmarshalWithRegistry env reg bdata valRef valIn).valOut = valIn)
  ∧ ((UnmarshalWithContext env dc bdata valRef valIn).err = some Err.invalidUnmarshal
      ∧ (UnmarshalWithContext env dc bdata valRef valIn).valOut = valIn)
  ∧ (extJSONFramingValid jdata = true →
      ((UnmarshalExtJSON env jdata canonical valRef valIn).err = some Err.invalidUnmarshal
        ∧ (UnmarshalExtJSON env jdata canonical valRef valIn).valOut = valIn)
      ∧ ((UnmarshalExtJSONWithRegistry env reg jdata canonical valRef valIn).err
            = some Err.invalidUnmarshal
        ∧ (UnmarshalExtJSONWithRegistry env reg jdata canonical valRef valIn).valOut = valIn)
      ∧ ((UnmarshalExtJSONWithContext env dc jdata canonical valRef valIn).err
            = some Err.invalidUnmarshal
        ∧ (UnmarshalExtJSONWithContext env dc jdata canonical valRef valIn).valOut = valIn)
      ∧ ((UnmarshalExtJSONWithRes env alloc jdata canonical valRef valIn resRef resIn).outcome
            = CallOutcome.ret (some Err.invalidUnmarshal)
        ∧ (UnmarshalExtJSONWithRes env alloc jdata canonical valRef valIn resRef resIn).valOut = valIn
        ∧ (UnmarshalExtJSONWithRes env alloc jdata canonical valRef valIn resRef resIn).resOut = resIn))
  ∧ (extJSONFramingValid jdata = false →
      (UnmarshalExtJSON env jdata canonical valRef valIn).err = some Err.invalidJSON) := by
  refine ⟨?_, ?_, ?_, ?_, ?_⟩
  · rw [show Unmarshal env bdata valRef valIn
        = UnmarshalWithRegistry env DefaultRegistry bdata valRef valIn from rfl,
      unmarshalWithRegistry_eq_spec,
      specSequence_invalid_dest env _ _ valIn valRef hval (hreset _) (hctx _)]
    exact ⟨rfl, rfl⟩
  · rw [unmarshalWithRegistry_eq_spec,
      specSequence_invalid_dest env _ _ valIn valRef hval (hreset _) (hctx _)]
    exact ⟨rfl, rfl⟩
  · rw [unmarshalWithContext_eq_spec,
      specSequence_invalid_dest env _ _ valIn valRef hval (hreset _) (hctx _)]
    exact ⟨rfl, rfl⟩
  · intro hframe
    refine ⟨?_, ?_, ?_, ?_⟩
    · rw [show UnmarshalExtJSON env jdata canonical valRef valIn
          = UnmarshalExtJSONWithRegistry env DefaultRegistry jdata canonical valRef valIn from rfl,
        unmarshalExtJSONWithRegistry_eq_spec]
      unfold extSpec
      rw [newExtJSONValueReader_ok jdata canonical hframe]
      dsimp only [prependEv]
      rw [specSequence_invalid_dest env _ _ valIn valRef hval (hreset _) (hctx _)]
      exact ⟨rfl, rfl⟩
    · rw [unmarshalExtJSONWithRegistry_eq_spec]
      unfold extSpec
      rw [newExtJSONValueReader_ok jdata canonical hframe]
      dsimp only [prependEv]
      rw [specSequence_invalid_dest env _ _ valIn valRef hval (hreset _) (hctx _)]
      exact ⟨rfl, rfl⟩
    · rw [unmarshalExtJSONWithContext_eq_spec]
      unfold extSpec
      rw [newExtJSONValueReader_ok jdata canonical hframe]
      dsimp only [prependEv]
      rw [specSequence_invalid_dest env _ _ valIn valRef hval (hreset _) (hctx _)]
      exact ⟨rfl, rfl⟩
    · rw [unmarshalExtJSONWithRes_eq_spec,
        specSequenceCapture_invalid_dest env alloc jdata canonical valIn resRef resIn valRef
          hval hframe (hreset _) (hctx _)]
      exact ⟨rfl, rfl, rfl⟩
  · intro hframe
    rw [show UnmarshalExtJSON env jdata canonical valRef valIn
        = UnmarshalExtJSONWithRegistry env DefaultRegistry jdata canonical valRef valIn from rfl,
      unmarshalExtJSONWithRegistry_eq_spec]
    unfold extSpec
    rw [newExtJSONValueReader_bad jdata canonical hframe]

/-- Witness for C2 (amended), at the empty binary input with a nil
destination and the concrete infallible environment. -/
theorem c2_invalid_destination_witness :
    (Unmarshal env0 [] GoRef.nil none).err = some Err.invalidUnmarshal :=
  ((c2_invalid_destination env0 DefaultRegistry { Registry := DefaultRegistry } [] c4input
      true none 0 GoRef.ptr none GoRef.nil (Or.inl rfl) (fun _ => rfl) (fun _ => rfl)).1).1

/-- C3, counterexample: the claim says the capture destination is
written exactly when the whole pipeline (reader construction, Reset,
SetContext, Decode) succeeds.  On this call the entire pipeline
succeeds — the trace ends with a successful decode — yet the capture
destination, passed as the nil interface, is never written: the commit
step crashes and leaves it in its pre-call state. -/
theorem c3_counterexample :
    (UnmarshalExtJSONWithRes env0 0 c4input true GoRef.ptr none GoRef.nil (some (JVal.str "old"))).trace
      = [Event.newExtJSONReader true, Event.acquire, Event.reset none,
          Event.setContext (captureContext 0) none, Event.decode none,
          Event.commit, Event.release]
  ∧ (UnmarshalExtJSONWithRes env0 0 c4input true GoRef.ptr none GoRef.nil (some (JVal.str "old"))).resOut
      = some (JVal.str "old")
  ∧ (UnmarshalExtJSONWithRes env0 0 c4input true GoRef.ptr none GoRef.nil (some (JVal.str "old"))).outcome
      = CallOutcome.crashed Crash.elemOnInvalidValue :=
  ⟨rfl, rfl, rfl⟩

/-- C3 (amended): the capture destination is written only by a fully
successful call — whenever any pipeline step returns an error, that
error is returned and the capture destination keeps its pre-call state
— and it is written whenever the pipeline succeeds, the capture was
populated, and both destinations are valid pointers; when the pipeline
succeeds but the capture destination is invalid, the commit crashes
instead (see C10) and the capture destination again keeps its pre-call
state. -/
theorem c3_capture_commit_gating (env : Env) (alloc : Nat) (jdata : List Char)
    (canonical : Bool) (valRef : GoRef) (valIn : Option JVal) (resRef : GoRef)
    (resIn : Option JVal) :
    (∀ e, (UnmarshalExtJSONWithRes env alloc jdata canonical valRef valIn resRef resIn).outcome
          = CallOutcome.ret (some e) →
        (UnmarshalExtJSONWithRes env alloc jdata canonical valRef valIn resRef resIn).resOut = resIn)
  ∧ ((UnmarshalExtJSONWithRes env alloc jdata canonical valRef valIn resRef resIn).resOut ≠ resIn →
      (UnmarshalExtJSONWithRes env alloc jdata canonical valRef valIn resRef resIn).outcome
        = CallOutcome.ret none)
  ∧ (∀ v w, extJSONFramingValid jdata = true →
      env.resetErr (ValueReader.extJSON jdata canonical) = none →
      env.ctxErr (captureContext alloc) = none →
      env.engine (captureContext alloc) (ValueReader.extJSON jdata canonical) valIn
        = EngineResult.mk none v (some w) →
      valRef = GoRef.ptr → resRef = GoRef.ptr →
      (UnmarshalExtJSONWithRes env alloc jdata canonical valRef valIn resRef resIn).outcome
          = CallOutcome.ret none
        ∧ (UnmarshalExtJSONWithRes env alloc jdata canonical valRef valIn resRef resIn).resOut
          = some w) := by
  refine ⟨?_, ?_, ?_⟩
  · intro e h
    rw [unmarshalExtJSONWithRes_eq_spec] at h ⊢
    exact capture_err_keeps_res env alloc jdata canonical valRef valIn resRef resIn e h
  · intro h
    rw [unmarshalExtJSONWithRes_eq_spec] at h ⊢
    rcases capture_resOut_cases env alloc jdata canonical valRef valIn resRef resIn with h1 | h1
    · exact absurd h1 h
    · exact h1
  · intro v w hframe hreset hctx heng hv hr
    subst hv
    subst hr
    rw [unmarshalExtJSONWithRes_eq_spec,
      capture_success env alloc jdata canonical valIn resIn v w hframe hreset hctx heng]
    exact ⟨rfl, rfl⟩

/-- Witness for C3 (amended): on the dual-output scenario with both
destinations valid, the call returns nil and the capture destination
receives the generic mapping. -/
theorem c3_capture_commit_gating_witness :
    (UnmarshalExtJSONWithRes env0 3 c4input true GoRef.ptr none GoRef.ptr none).outcome
        = CallOutcome.ret none
  ∧ (UnmarshalExtJSONWithRes env0 3 c4input true GoRef.ptr none GoRef.ptr none).resOut
        = some c4generic :=
  (c3_capture_commit_gating env0 3 c4input true GoRef.ptr none GoRef.ptr none).2.2
    (some c4typed) c4generic rfl rfl rfl rfl rfl rfl

/-- C4: on the extended-JSON input pairing key a with string 123 and
key b with a nested document pairing key b with integer 123, decoded
into a typed destination of the example shape together with a generic
capture destination, `UnmarshalExtJSONWithRes` succeeds and produces
the typed value (A string 123, B holding B integer 123) and a capture
equal to the corresponding generic mapping; the trace contains exactly
one decode event, so both outputs come from a single traversal of the
input.  The decode engine itself is external to the dispatch source and
is modelled from the specification (`specEngine`). -/
theorem c4_dual_output_scenario :
    UnmarshalExtJSONWithRes env0 0 c4input true GoRef.ptr none GoRef.ptr none
      = ResResult.mk (CallOutcome.ret none) (some c4typed) (some c4generic)
          [Event.newExtJSONReader true, Event.acquire, Event.reset none,
            Event.setContext (captureContext 0) none, Event.decode none,
            Event.commit, Event.release] :=
  rfl

/-- C5: for every extended-JSON operation, when the input's framing
makes reader construction fail, the construction error is returned
immediately: the whole call result equals the one whose trace holds
only the failed construction event — so no Decoder is acquired, no
decode is attempted, and the destination (and, for the capture entry
point, the capture destination) keeps its pre-call state. -/
theorem c5_framing_failure (env : Env) (reg : Registry) (dc : DecodeContext) (alloc : Nat)
    (jdata : List Char) (canonical : Bool) (valRef : GoRef) (valIn : Option JVal)
    (resRef : GoRef) (resIn : Option JVal)
    (hframe : extJSONFramingValid jdata = false) :
    UnmarshalExtJSON env jdata canonical valRef valIn
      = UnmarshalResult.mk (some Err.invalidJSON) valIn [Event.newExtJSONReader false]
  ∧ UnmarshalExtJSONWithRegistry env reg jdata canonical valRef valIn
      = UnmarshalResult.mk (some Err.invalidJSON) valIn [Event.newExtJSONReader false]
  ∧ UnmarshalExtJSONWithContext env dc jdata canonical valRef valIn
      = UnmarshalResult.mk (some Err.invalidJSON) valIn [Event.newExtJSONReader false]
  ∧ UnmarshalExtJSONWithRes env alloc jdata canonical valRef valIn resRef resIn
      = ResResult.mk (CallOutcome.ret (some Err.invalidJSON)) valIn resIn
          [Event.newExtJSONReader false] := by
  refine ⟨?_, ?_, ?_, ?_⟩
  · rw [show UnmarshalExtJSON env jdata canonical valRef valIn
        = UnmarshalExtJSONWithRegistry env DefaultRegistry jdata canonical valRef valIn from rfl,
      unmarshalExtJSONWithRegistry_eq_spec]
    unfold extSpec
    rw [newExtJSONValueReader_bad jdata canonical hframe]
  · rw [unmarshalExtJSONWithRegistry_eq_spec]
    unfold extSpec
    rw [newExtJSONValueReader_bad jdata canonical hframe]
  · rw [unmarshalExtJSONWithContext_eq_spec]
    unfold extSpec
    rw [newExtJSONValueReader_bad jdata canonical hframe]
  · rw [unmarshalExtJSONWithRes_eq_spec]
    unfold specSequenceCapture
    rw [newExtJSONValueReader_bad jdata canonical hframe]

/-- Witness for C5 at the concrete malformed input (unterminated string
literal), with a pre-populated destination left untouched. -/
theorem c5_framing_failure_witness :
    UnmarshalExtJSON env0 badInput true GoRef.ptr (some c4generic)
      = UnmarshalResult.mk (some Err.invalidJSON) (some c4generic)
          [Event.newExtJSONReader false] :=
  (c5_framing_failure env0 DefaultRegistry { Registry := DefaultRegistry } 0 badInput true
    GoRef.ptr (some c4generic) GoRef.ptr none rfl).1

/-- Witness for C7, instantiating the setContext-event clause at a
concrete call on a non-default registry. -/
theorem c7_default_registry_equiv_witness :
    ({ Registry := Registry.mk 5, ValM := none, SetVal := false } : DecodeContext)
      = { Registry := Registry.mk 5, ValM := none, SetVal := false } :=
  (c7_default_registry_equiv env0 (Registry.mk 5) [] c4input true GoRef.ptr none).2.2.1
    { Registry := Registry.mk 5, ValM := none, SetVal := false } none (by decide)

/-- Witness for C8: with an environment whose Reset step fails, the
returned error is the one recorded at a decoder step of the trace. -/
theorem c8_binary_construction_total_witness :
    Event.reset (some Err.resetFailure) ∈ (Unmarshal envResetFail [] GoRef.ptr none).trace
    ∨ (∃ d, Event.setContext d (some Err.resetFailure)
        ∈ (Unmarshal envResetFail [] GoRef.ptr none).trace)
    ∨ Event.decode (some Err.resetFailure) ∈ (Unmarshal envResetFail [] GoRef.ptr none).trace :=
  (c8_binary_construction_total envResetFail DefaultRegistry { Registry := DefaultRegistry }
    [] GoRef.ptr none Err.resetFailure).2.2.2.1 (by decide)

/-- Witness for C9 at a concrete capture call: the bound context is the
fixed capture context of the call's fresh allocation. -/
theorem c9_capture_context_fixed_witness :
    (captureContext 7).Registry = DefaultRegistry ∧ (captureContext 7).SetVal = true
      ∧ (captureContext 7).ValM = some 7 :=
  c9_capture_context_fixed env0 7 c4input true GoRef.ptr none GoRef.ptr none
    (captureContext 7) none (by decide)

/-- C10: `UnmarshalExtJSONWithRes` performs no validation of the
capture destination: when every pipeline step up to and including the
typed decode succeeds but the capture destination is the nil interface
or a non-pointer, the commit step crashes through reflection
(`reflect.Value.Elem` on an invalid value) instead of returning an
error, and the capture destination keeps its pre-call state; the trace
shows the decode succeeded. -/
theorem c10_commit_crash_on_invalid_res (env : Env) (alloc : Nat) (jdata : List Char)
    (canonical : Bool) (valIn : Option JVal) (resIn : Option JVal) (resRef : GoRef)
    (v : Option JVal) (cap : Option JVal)
    (hres : resRef = GoRef.nil ∨ resRef = GoRef.nonPtr)
    (hframe : extJSONFramingValid jdata = true)
    (hreset : env.resetErr (ValueReader.extJSON jdata canonical) = none)
    (hctx : env.ctxErr (captureContext alloc) = none)
    (heng : env.engine (captureContext alloc) (ValueReader.extJSON jdata canonical) valIn
      = EngineResult.mk none v cap) :
    (UnmarshalExtJSONWithRes env alloc jdata canonical GoRef.ptr valIn resRef resIn).outcome
        = CallOutcome.crashed Crash.elemOnInvalidValue
  ∧ (UnmarshalExtJSONWithRes env alloc jdata canonical GoRef.ptr valIn resRef resIn).resOut = resIn
  ∧ Event.decode none
      ∈ (UnmarshalExtJSONWithRes env alloc jdata canonical GoRef.ptr valIn resRef resIn).trace := by
  rw [unmarshalExtJSONWithRes_eq_spec]
  unfold specSequenceCapture
  rw [newExtJSONValueReader_ok jdata canonical hframe]
  dsimp only
  rw [hreset]
  dsimp only
  rw [hctx]
  dsimp only [decodeStep]
  rw [heng]
  rcases hres with h | h <;> subst h <;> exact ⟨rfl, rfl, by simp⟩

/-- Witness for C10: the dual-output scenario with a non-pointer
capture destination crashes at the commit. -/
theorem c10_commit_crash_on_invalid_res_witness :
    (UnmarshalExtJSONWithRes env0 0 c4input true GoRef.ptr none GoRef.nonPtr none).outcome
        = CallOutcome.crashed Crash.elemOnInvalidValue
  ∧ (UnmarshalExtJSONWithRes env0 0 c4input true GoRef.ptr none GoRef.nonPtr none).resOut = none
  ∧ Event.decode none
      ∈ (UnmarshalExtJSONWithRes env0 0 c4input true GoRef.ptr none GoRef.nonPtr none).trace :=
  c10_commit_crash_on_invalid_res env0 0 c4input true none none GoRef.nonPtr
    (some c4typed) (some c4generic) (Or.inr rfl) rfl rfl rfl rfl

end Bson
